import Mathlib

/- A verification development for waf_download.py.

   The program scrapes an HTML index page from an ERDDAP server, collects the
   href values of anchors ending in ".xml" (MyHTMLParser), downloads each
   linked file in 4096-byte chunks (download_file), and extracts metadata from
   the downloaded documents (print_xml_metadata, print_xml_data_types,
   print_all_elements).

   The embedding below models Python strings as Lean Strings (lists of
   characters), HTTP responses and the HTML tokenizer, the text decoder and
   the XML parser as explicit parameters (they are library code, not part of
   the repository), and the filesystem as a map from paths to byte lists.
   Exceptions are modelled by an explicit error component in each result
   record: a `some` error corresponds to an uncaught Python exception
   propagating out of the function. -/

namespace WafDownload

/-! ### Python string primitives

    Python str operations used by the script, embedded on the character list
    underlying a Lean String.  `pyEndsWith s t` is `s.endswith(t)`,
    `pyRstrip c s` is `s.rstrip(c)`, `pyBasename` is `os.path.basename` with
    POSIX separators, `posixJoin` is `os.path.join` (POSIX `posixpath.join`)
    for two arguments, and `pySlice n s` is `s[:n]`. -/

def pyEndsWith (s t : String) : Bool :=
  t.data.isSuffixOf s.data

def pyRstrip (c : Char) (s : String) : String :=
  String.mk ((s.data.reverse.dropWhile (fun x => x = c)).reverse)

def pyBasename (s : String) : String :=
  String.mk ((s.data.reverse.takeWhile (fun x => x ≠ '/')).reverse)

def strHead (s : String) : Option Char := s.data.head?

def strLast (s : String) : Option Char := s.data.getLast?

def posixJoin (a b : String) : String :=
  if strHead b = some '/' then b
  else if a.data = [] ∨ strLast a = some '/' then a ++ b
  else a ++ "/" ++ b

def pySlice (n : Nat) (s : String) : String := String.mk (s.data.take n)

/-! ### IndexScanner: MyHTMLParser

    `handle_starttag` is the body of MyHTMLParser.handle_starttag: on an "a"
    tag it looks up the href attribute in dict(attrs) (last binding wins, an
    attribute without a value gives None) and appends it to the accumulated
    xml_files list when it is truthy and ends with ".xml".  `feedTags` is
    parser.feed on the start-tag event stream produced by the html.parser
    tokenizer, starting from the empty xml_files list. -/

abbrev Attrs := List (String × Option String)

abbrev StartTag := String × Attrs

def dictGetHref (attrs : Attrs) : Option String :=
  attrs.foldl (fun acc p => if p.1 = "href" then p.2 else acc) none

def handle_starttag (xml_files : List String) (tag : String) (attrs : Attrs) :
    List String :=
  if tag = "a" then
    match dictGetHref attrs with
    | some href =>
        if href ≠ "" ∧ pyEndsWith href ".xml" = true then xml_files ++ [href]
        else xml_files
    | none => xml_files
  else xml_files

def feedTags (tokens : List StartTag) : List String :=
  tokens.foldl (fun st t => handle_starttag st t.1 t.2) []

/-- Modelled from the spec: the IndexScanner as a pure function.  A start tag
    qualifies when it is an anchor whose href attribute is present and ends
    with ".xml"; the scanner returns exactly the qualifying hrefs in document
    order without deduplication. -/
def qualifyingHref (t : StartTag) : Option String :=
  if t.1 = "a" then
    match dictGetHref t.2 with
    | some href =>
        if href ≠ "" ∧ pyEndsWith href ".xml" = true then some href else none
    | none => none
  else none

/-- Modelled from the spec: scan is filterMap of the qualifying-href test. -/
def scanSpec (tokens : List StartTag) : List String :=
  tokens.filterMap qualifyingHref

lemma handle_starttag_eq (st : List String) (tag : String) (attrs : Attrs) :
    handle_starttag st tag attrs = st ++ (qualifyingHref (tag, attrs)).toList := by
  by_cases h1 : tag = "a"
  · simp only [handle_starttag, qualifyingHref, h1, if_pos]
    cases h2 : dictGetHref attrs with
    | none => simp
    | some href =>
        by_cases h3 : href ≠ "" ∧ pyEndsWith href ".xml" = true
        · simp [h3]
        · simp [h3]
  · simp [handle_starttag, qualifyingHref, h1]

lemma foldl_handle_starttag (tokens : List StartTag) (init : List String) :
    tokens.foldl (fun st t => handle_starttag st t.1 t.2) init
      = init ++ scanSpec tokens := by
  induction tokens generalizing init with
  | nil => simp [scanSpec]
  | cons t ts ih =>
      simp only [List.foldl_cons]
      rw [ih, handle_starttag_eq]
      simp only [scanSpec, List.filterMap_cons]
      cases h : qualifyingHref (t.1, t.2) with
      | none => simp [h]
      | some href => simp [h]

/-- C1: for every start-tag event stream, the scanner collects exactly the
    href values of anchor tags whose href attribute is present and ends with
    ".xml", in document order, without deduplication; a stream with no
    qualifying anchor yields the empty list; non-anchor tags and anchors
    without a qualifying href contribute nothing. -/
theorem claim_C1 :
    (∀ tokens : List StartTag, feedTags tokens = scanSpec tokens) ∧
    (∀ tokens : List StartTag,
      (∀ t ∈ tokens, qualifyingHref t = none) → feedTags tokens = []) := by
  constructor
  · intro tokens
    simpa using foldl_handle_starttag tokens []
  · intro tokens h
    have h1 : feedTags tokens = scanSpec tokens := by
      simpa using foldl_handle_starttag tokens []
    rw [h1, scanSpec, List.filterMap_eq_nil_iff]
    exact h

/-- C1 witness: on a concrete token stream with two anchors (one qualifying)
    and an image tag, the scanner returns exactly the qualifying href, and on
    a stream with no qualifying anchor it returns the empty list. -/
theorem claim_C1_witness :
    (feedTags [("a", [("href", some "data1.xml")]), ("img", [("src", some "x.png")]),
               ("a", [("href", some "notes.txt")]), ("a", [("href", some "data1.xml")])]
      = scanSpec [("a", [("href", some "data1.xml")]), ("img", [("src", some "x.png")]),
                  ("a", [("href", some "notes.txt")]), ("a", [("href", some "data1.xml")])]) ∧
    ((∀ t ∈ ([("a", [("href", some "notes.txt")]), ("div", [])] : List StartTag),
        qualifyingHref t = none) ∧
      feedTags [("a", [("href", some "notes.txt")]), ("div", [])] = []) :=
  ⟨claim_C1.1 _, by decide, claim_C1.2 _ (by decide)⟩

/-! ### Chunked streaming

    response.iter_content(chunk_size=4096) yields the body in successive
    chunks of at most 4096 bytes.  `chunksFuel n fuel xs` splits `xs` into
    chunks of size `n`, with `fuel` bounding the recursion depth (structural
    recursion keeps the definition kernel-computable); `chunks4096 body`
    instantiates it for the download loop. -/

def chunksFuel (n : Nat) : Nat → List Nat → List (List Nat)
  | 0, _ => []
  | _, [] => []
  | fuel + 1, x :: xs => (x :: xs).take n :: chunksFuel n fuel ((x :: xs).drop n)

def chunks4096 (body : List Nat) : List (List Nat) :=
  chunksFuel 4096 body.length body

lemma chunksFuel_join (n : Nat) (hn : 0 < n) :
    ∀ (fuel : Nat) (xs : List Nat), xs.length ≤ fuel →
      (chunksFuel n fuel xs).flatten = xs := by
  intro fuel
  induction fuel with
  | zero =>
      intro xs hxs
      have : xs = [] := List.length_eq_zero.mp (Nat.le_antisymm hxs (Nat.zero_le _))
      subst this
      simp [chunksFuel]
  | succ f ih =>
      intro xs hxs
      cases xs with
      | nil => simp [chunksFuel]
      | cons x xs =>
          simp only [chunksFuel, List.flatten_cons]
          have hdrop : ((x :: xs).drop n).length ≤ f := by
            rw [List.length_drop]
            have : (x :: xs).length ≤ f + 1 := hxs
            omega
          rw [ih _ hdrop, List.take_append_drop]

lemma chunks4096_join (body : List Nat) : (chunks4096 body).flatten = body :=
  chunksFuel_join 4096 (by omega) body.length body (Nat.le_refl _)

lemma chunksFuel_ne_nil (n : Nat) (hn : 0 < n) :
    ∀ (fuel : Nat) (xs : List Nat), ∀ c ∈ chunksFuel n fuel xs,
      c ≠ [] ∧ c.length ≤ n := by
  intro fuel
  induction fuel with
  | zero => intro xs c hc; simp [chunksFuel] at hc
  | succ f ih =>
      intro xs c hc
      cases xs with
      | nil => simp [chunksFuel] at hc
      | cons x xs =>
          simp only [chunksFuel, List.mem_cons] at hc
          rcases hc with hc | hc
          · subst hc
            constructor
            · cases n with
              | zero => omega
              | succ m => simp [List.take]
            · exact List.length_take_le _ _
          · exact ih _ _ hc

lemma chunks4096_filter (body : List Nat) :
    (chunks4096 body).filter (fun c => !c.isEmpty) = chunks4096 body := by
  apply List.filter_eq_self.mpr
  intro c hc
  have := (chunksFuel_ne_nil 4096 (by omega) body.length body c hc).1
  simpa [List.isEmpty_iff] using this

/-! ### XML element trees

    An ElementTree element: a tag (ElementTree stores namespace-qualified
    tags as "\x7buri\x7dname" strings), the direct text content (None or a
    string) and the child elements in document order.  `iterAll` is
    Element.iter(): the element followed by all descendants in preorder
    document order; `descendants` drops the element itself, which is what the
    ElementPath "//" operator selects from. -/

inductive XmlElem where
  | mk (tag : String) (txt : Option String) (children : List XmlElem)

def XmlElem.tag : XmlElem → String
  | .mk t _ _ => t

def XmlElem.text : XmlElem → Option String
  | .mk _ tx _ => tx

def XmlElem.children : XmlElem → List XmlElem
  | .mk _ _ cs => cs

mutual

def iterAll : XmlElem → List XmlElem
  | .mk t tx cs => .mk t tx cs :: iterList cs

def iterList : List XmlElem → List XmlElem
  | [] => []
  | e :: es => iterAll e ++ iterList es

end

def descendants (e : XmlElem) : List XmlElem := iterList e.children

/-- One ElementPath "//tag" step: for each element of the current result set,
    all proper descendants carrying the tag, in document order. -/
def selectDescendant (cur : List XmlElem) (t : String) : List XmlElem :=
  cur.flatMap (fun e => (descendants e).filter (fun x => x.tag = t))

/-- findall for a path of the form ".//t1//t2//...//tk". -/
def findallDesc (root : XmlElem) (path : List String) : List XmlElem :=
  path.foldl selectDescendant [root]

/-! ### The namespace table and the data-types path of print_xml_data_types -/

def gmdNS : String := "http://www.isotc211.org/2005/gmd"

def gmiNS : String := "http://www.isotc211.org/2005/gmi"

def gcoNS : String := "http://www.isotc211.org/2005/gco"

def xlinkNS : String := "http://www.w3.org/1999/xlink"

def namespaces : List (String × String) :=
  [("gmd", gmdNS), ("gmi", gmiNS), ("gco", gcoNS), ("xlink", xlinkNS)]

/-- The ElementTree form "\x7buri\x7dname" of a namespace-qualified tag. -/
def qn (uri nm : String) : String := "\x7b" ++ uri ++ "\x7d" ++ nm

/-- The findall path of print_xml_data_types,
    ".//gmd:contentInfo//gmi:MI_CoverageDescription//gmd:dimension//gmd:MD_Band
    //gmd:sequenceIdentifier//gco:MemberName//gco:aName//gco:CharacterString",
    with each prefix resolved through the namespaces table. -/
def dataTypesPath : List String :=
  [qn gmdNS "contentInfo", qn gmiNS "MI_CoverageDescription",
   qn gmdNS "dimension", qn gmdNS "MD_Band", qn gmdNS "sequenceIdentifier",
   qn gcoNS "MemberName", qn gcoNS "aName", qn gcoNS "CharacterString"]

/-- The loop body of print_xml_data_types: data_type = elem.text, appended
    when truthy (present and non-empty). -/
def data_types (tree : XmlElem) : List String :=
  (findallDesc tree dataTypesPath).foldl
    (fun acc elem =>
      match elem.text with
      | some t => if t ≠ "" then acc ++ [t] else acc
      | none => acc) []

/-- Python ", ".join. -/
def joinComma : List String → String
  | [] => ""
  | [s] => s
  | s :: t :: rest => s ++ ", " ++ joinComma (t :: rest)

/-- print_xml_data_types: parse the content (the except-clause catches
    ElementTree.ParseError and reports it), walk the fixed path, and print
    either the joined values or "No data types found.".  The parser is the
    xml.etree library, passed as a parameter. -/
def print_xml_data_types (parseXml : String → Except String XmlElem)
    (xml_content : String) : List String :=
  match parseXml xml_content with
  | .error e => ["Failed to parse XML content: " ++ e]
  | .ok tree =>
      let dts := data_types tree
      if dts ≠ [] then ["Available Data Types: " ++ joinComma dts]
      else ["No data types found."]

/-- Python str() of an optional text, as interpolated by the f-string in
    print_all_elements. -/
def showPyOpt : Option String → String
  | none => "None"
  | some t => t

/-- print_all_elements: parse independently and print every element of
    tree.iter() with its tag and text. -/
def print_all_elements (parseXml : String → Except String XmlElem)
    (xml_content : String) : List String :=
  match parseXml xml_content with
  | .error e => ["Failed to parse XML content: " ++ e]
  | .ok tree =>
      (iterAll tree).map (fun e => "Tag: " ++ e.tag ++ ", Text: " ++ showPyOpt e.text)

/-! ### Characterizing the path selection -/

/-- The relation denoted by a "//"-separated path: `SelSpec path r x` holds
    when `x` is reached from `r` through a chain of proper-descendant steps
    whose tags are the successive path segments. -/
def SelSpec : List String → XmlElem → XmlElem → Prop
  | [], root, x => x = root
  | t :: ts, root, x => ∃ y ∈ descendants root, y.tag = t ∧ SelSpec ts y x

lemma mem_foldl_selectDescendant (path : List String) :
    ∀ (cur : List XmlElem) (x : XmlElem),
      x ∈ path.foldl selectDescendant cur ↔ ∃ e ∈ cur, SelSpec path e x := by
  induction path with
  | nil =>
      intro cur x
      simp [SelSpec]
  | cons t ts ih =>
      intro cur x
      simp only [List.foldl_cons]
      rw [ih]
      constructor
      · rintro ⟨e, he, hsel⟩
        simp only [selectDescendant] at he
        rcases List.mem_flatMap.mp he with ⟨c, hc, hef⟩
        rcases List.mem_filter.mp hef with ⟨hed, htag⟩
        exact ⟨c, hc, e, hed, by simpa using htag, hsel⟩
      · rintro ⟨c, hc, y, hyd, hytag, hsel⟩
        refine ⟨y, ?_, hsel⟩
        simp only [selectDescendant]
        exact List.mem_flatMap.mpr
          ⟨c, hc, List.mem_filter.mpr ⟨hyd, by simpa using hytag⟩⟩

lemma mem_findallDesc (root x : XmlElem) (path : List String) :
    x ∈ findallDesc root path ↔ SelSpec path root x := by
  rw [findallDesc, mem_foldl_selectDescendant]
  simp

/-- Generic shape of the append-accumulator loops in the script. -/
lemma foldl_optAppend {α β : Type} (step : List β → α → List β) (g : α → Option β)
    (hstep : ∀ acc a, step acc a = acc ++ (g a).toList) :
    ∀ (l : List α) (init : List β), l.foldl step init = init ++ l.filterMap g := by
  intro l
  induction l with
  | nil => intro init; simp
  | cons a as ih =>
      intro init
      simp only [List.foldl_cons]
      rw [hstep, ih, List.filterMap_cons]
      cases h : g a with
      | none => simp
      | some b => simp

/-- The per-element test of the data-types loop: the text, when truthy. -/
def textValue (e : XmlElem) : Option String :=
  match e.text with
  | some t => if t ≠ "" then some t else none
  | none => none

lemma textValue_eq_some (x : XmlElem) (s : String) :
    textValue x = some s ↔ x.text = some s ∧ s ≠ "" := by
  cases h : x.text with
  | none => simp [textValue, h]
  | some t =>
      by_cases ht : t = ""
      · subst ht
        simp only [textValue, h]
        constructor
        · intro hv
          simp at hv
        · rintro ⟨hv, hne⟩
          simp only [Option.some.injEq] at hv
          exact absurd hv.symm hne
      · simp only [textValue, h, if_pos (show t ≠ "" from ht), Option.some.injEq]
        constructor
        · rintro rfl
          exact ⟨rfl, ht⟩
        · rintro ⟨rfl, _⟩
          rfl

lemma data_types_eq_filterMap (tree : XmlElem) :
    data_types tree = (findallDesc tree dataTypesPath).filterMap textValue := by
  rw [data_types]
  have h := foldl_optAppend
    (fun acc elem =>
      match elem.text with
      | some t => if t ≠ "" then acc ++ [t] else acc
      | none => acc)
    textValue
    (by
      intro acc e
      cases h : e.text with
      | none => simp [textValue, h]
      | some t =>
          by_cases ht : t ≠ "" <;> simp [textValue, h, ht])
    (findallDesc tree dataTypesPath) []
  rw [List.nil_append] at h
  exact h

lemma mem_data_types (tree : XmlElem) (s : String) :
    s ∈ data_types tree ↔
      ∃ x ∈ findallDesc tree dataTypesPath, x.text = some s ∧ s ≠ "" := by
  rw [data_types_eq_filterMap, List.mem_filterMap]
  constructor
  · rintro ⟨x, hx, hxt⟩
    exact ⟨x, hx, (textValue_eq_some x s).mp hxt⟩
  · rintro ⟨x, hx, hxt⟩
    exact ⟨x, hx, (textValue_eq_some x s).mpr hxt⟩

/-- A constant parser standing in for ElementTree.fromstring on a text whose
    parse result is known. -/
def okParser (doc : XmlElem) : String → Except String XmlElem :=
  fun _ => Except.ok doc

/-- Modelled from the spec: the five-element hierarchy the claim names,
    coverage-description / band / sequence-identifier / member-name /
    character-string, as a descendant path with the same namespace URIs. -/
def specFivePath : List String :=
  [qn gmiNS "MI_CoverageDescription", qn gmdNS "MD_Band",
   qn gmdNS "sequenceIdentifier", qn gcoNS "MemberName",
   qn gcoNS "CharacterString"]

/-- Modelled from the spec: the targeted lookup along the five-element path
    of the claim, collecting present non-empty leaf texts. -/
def data_types_spec5 (tree : XmlElem) : List String :=
  (findallDesc tree specFivePath).filterMap textValue

/-- A document whose elements form exactly the five-level hierarchy named by
    the claim (no contentInfo, dimension or aName elements). -/
def cexDoc : XmlElem :=
  .mk (qn gmdNS "MI_Metadata") none
    [.mk (qn gmiNS "MI_CoverageDescription") none
      [.mk (qn gmdNS "MD_Band") none
        [.mk (qn gmdNS "sequenceIdentifier") none
          [.mk (qn gcoNS "MemberName") none
            [.mk (qn gcoNS "CharacterString") (some "chlorophyll") []]]]]]

set_option maxHeartbeats 4000000 in
/-- C2 counterexample: the code walks a path of eight element names, not
    five.  On a document carrying exactly the claimed five-level hierarchy
    with leaf text "chlorophyll", the five-element path of the claim finds
    the value but print_xml_data_types finds nothing and prints
    "No data types found." (also not the message "no values found" the claim
    quotes). -/
theorem claim_C2_counterexample :
    data_types cexDoc = [] ∧
    data_types_spec5 cexDoc = ["chlorophyll"] ∧
    print_xml_data_types (okParser cexDoc) "document" = ["No data types found."] ∧
    dataTypesPath.length = 8 := by
  decide

/-- C2 amended: on every successfully parsed document, the targeted lookup
    collects exactly the present, non-empty texts of CharacterString leaves
    reached through a descendant chain of the EIGHT namespace-qualified
    element names contentInfo, MI_CoverageDescription, dimension, MD_Band,
    sequenceIdentifier, MemberName, aName, CharacterString; when no value is
    found it prints "No data types found." and does not raise, otherwise it
    prints the comma-joined values. -/
theorem claim_C2_amended (parseXml : String → Except String XmlElem)
    (content : String) (tree : XmlElem)
    (hp : parseXml content = Except.ok tree) :
    (∀ s, s ∈ data_types tree ↔
        ∃ x, SelSpec dataTypesPath tree x ∧ x.text = some s ∧ s ≠ "") ∧
    (data_types tree = [] →
        print_xml_data_types parseXml content = ["No data types found."]) ∧
    (data_types tree ≠ [] →
        print_xml_data_types parseXml content
          = ["Available Data Types: " ++ joinComma (data_types tree)]) := by
  refine ⟨?_, ?_, ?_⟩
  · intro s
    rw [mem_data_types]
    constructor
    · rintro ⟨x, hx, h1, h2⟩
      exact ⟨x, (mem_findallDesc tree x dataTypesPath).mp hx, h1, h2⟩
    · rintro ⟨x, hx, h1, h2⟩
      exact ⟨x, (mem_findallDesc tree x dataTypesPath).mpr hx, h1, h2⟩
  · intro h0
    simp [print_xml_data_types, hp, h0]
  · intro h0
    simp [print_xml_data_types, hp, h0]

/-- A document in which the full eight-level hierarchy of the code's path is
    present with leaf text "sea_water_temperature". -/
def witDoc : XmlElem :=
  .mk (qn gmdNS "MI_Metadata") none
    [.mk (qn gmdNS "contentInfo") none
      [.mk (qn gmiNS "MI_CoverageDescription") none
        [.mk (qn gmdNS "dimension") none
          [.mk (qn gmdNS "MD_Band") none
            [.mk (qn gmdNS "sequenceIdentifier") none
              [.mk (qn gcoNS "MemberName") none
                [.mk (qn gcoNS "aName") none
                  [.mk (qn gcoNS "CharacterString")
                    (some "sea_water_temperature") []]]]]]]]]

set_option maxHeartbeats 4000000 in
/-- C2 witness: the amended theorem applied to a parser that yields the
    eight-level document, on which the lookup finds "sea_water_temperature". -/
theorem claim_C2_amended_witness :
    (okParser witDoc "document" = Except.ok witDoc) ∧
    (data_types witDoc = ["sea_water_temperature"]) ∧
    ((∀ s, s ∈ data_types witDoc ↔
        ∃ x, SelSpec dataTypesPath witDoc x ∧ x.text = some s ∧ s ≠ "") ∧
      (data_types witDoc = [] →
        print_xml_data_types (okParser witDoc) "document"
          = ["No data types found."]) ∧
      (data_types witDoc ≠ [] →
        print_xml_data_types (okParser witDoc) "document"
          = ["Available Data Types: " ++ joinComma (data_types witDoc)])) :=
  ⟨rfl, by decide, claim_C2_amended (okParser witDoc) "document" witDoc rfl⟩

/-! ### HTTP, filesystem and the download pipeline

    The HTTP server, the html.parser tokenizer, the text decoder used by
    open(..., 'r') and the xml.etree parser are external library collaborators
    and enter the model as components of a `World`.  `ioFault p = some k`
    models an OSError raised by the (k+1)-th chunk write to path p; `none`
    means writing never fails.  Each modelled function returns an explicit
    record; `err = some e` is an uncaught Python exception carrying message
    e. -/

structure HttpResp where
  status : Nat
  text : String
  body : List Nat

structure World where
  http : String → HttpResp
  tokenize : String → List StartTag
  decode : List Nat → Except String String
  parseXml : String → Except String XmlElem
  ioFault : String → Option Nat

abbrev FS : Type := String → Option (List Nat)

def updateFS (fs : FS) (p : String) (v : List Nat) : FS :=
  fun q => if q = p then some v else fs q

structure DLResult where
  fs : FS
  printed : List String
  requested : List String
  err : Option String
  retVal : Option Nat
  opened : Bool
  closed : Bool

/-- download_file(file_url, destination_path, file_name): GET the url
    (streaming); a non-200 status raises IOError whose message carries the
    url and the status code; on 200 the body is written to
    os.path.join(destination_path, file_name) in 4096-byte chunks, skipping
    falsy (empty) chunks, inside a with-block that closes the handle on every
    exit path; an OSError during writing propagates after the close.  On
    success the function prints its confirmation line; it has no return
    statement, so it returns None. -/
def download_file (w : World) (fs : FS)
    (file_url destination_path file_name : String) : DLResult :=
  let response := w.http file_url
  if response.status ≠ 200 then
    { fs := fs, printed := [], requested := [file_url],
      err := some ("Failed to retrieve file from " ++ file_url ++
        " with error code " ++ toString response.status),
      retVal := none, opened := false, closed := false }
  else
    let file_path := posixJoin destination_path file_name
    let cs := (chunks4096 response.body).filter (fun c => !c.isEmpty)
    match w.ioFault file_path with
    | some k =>
        if k < cs.length then
          { fs := updateFS fs file_path (cs.take k).flatten, printed := [],
            requested := [file_url],
            err := some "OSError while writing", retVal := none,
            opened := true, closed := true }
        else
          { fs := updateFS fs file_path cs.flatten,
            printed := ["Downloaded file to " ++ file_path],
            requested := [file_url], err := none, retVal := none,
            opened := true, closed := true }
    | none =>
        { fs := updateFS fs file_path cs.flatten,
          printed := ["Downloaded file to " ++ file_path],
          requested := [file_url], err := none, retVal := none,
          opened := true, closed := true }

/-- print_xml_metadata(file_path): re-open the downloaded file from disk in
    text mode and decode it with the platform default encoding (a missing
    file or a UnicodeDecodeError propagates uncaught), print the header and
    the first 500 characters, then run the two extraction passes, each of
    which parses the content independently and catches only ParseError. -/
def print_xml_metadata (w : World) (fs : FS) (file_path : String) :
    Except String (List String) :=
  match fs file_path with
  | none => Except.error ("FileNotFoundError: " ++ file_path)
  | some bytes =>
      match w.decode bytes with
      | Except.error e => Except.error e
      | Except.ok xml_content =>
          Except.ok (("Metadata for " ++ file_path ++ ":") ::
            pySlice 500 xml_content ::
            (print_xml_data_types w.parseXml xml_content ++
             print_all_elements w.parseXml xml_content))

structure RunResult where
  fs : FS
  printed : List String
  requested : List String
  err : Option String

/-- The per-link loop of get_erddap_metadata: for each discovered href, GET
    os.path.join(url, href) into destination/basename(href), print the
    "Found XML file" line, and extract metadata; the first uncaught
    exception leaves the loop immediately. -/
def processLinks (w : World) (url destination : String) :
    FS → List String → RunResult
  | fs, [] => { fs := fs, printed := [], requested := [], err := none }
  | fs, xml_file :: rest =>
      let file_url := posixJoin url xml_file
      let file_name := pyBasename xml_file
      let d := download_file w fs file_url destination file_name
      match d.err with
      | some e =>
          { fs := d.fs, printed := d.printed, requested := d.requested,
            err := some e }
      | none =>
          match print_xml_metadata w d.fs (posixJoin destination file_name) with
          | Except.error e =>
              { fs := d.fs,
                printed := d.printed ++ ["Found XML file: " ++ file_url],
                requested := d.requested, err := some e }
          | Except.ok mlines =>
              let r2 := processLinks w url destination d.fs rest
              { fs := r2.fs,
                printed := d.printed ++
                  ("Found XML file: " ++ file_url) :: mlines ++ r2.printed,
                requested := d.requested ++ r2.requested,
                err := r2.err }

/-- get_erddap_metadata(url, destination): strip trailing slashes, GET the
    index page (a non-200 status raises IOError whose message carries only
    the url), feed the page text to MyHTMLParser, then process every
    collected href in order. -/
def get_erddap_metadata (w : World) (url0 destination : String) (fs : FS) :
    RunResult :=
  let url := pyRstrip '/' url0
  let response := w.http url
  if response.status ≠ 200 then
    { fs := fs, printed := [], requested := [url],
      err := some ("Failed to get index from ERDDAP at " ++ url) }
  else
    let r := processLinks w url destination fs
      (feedTags (w.tokenize response.text))
    { fs := r.fs, printed := r.printed, requested := url :: r.requested,
      err := r.err }

/-! ### Pipeline vocabulary -/

def fileUrl (url href : String) : String := posixJoin url href

def targetPath (destination href : String) : String :=
  posixJoin destination (pyBasename href)

def linkBody (w : World) (url href : String) : List Nat :=
  (w.http (fileUrl url href)).body

def exceptOk {ε α : Type} : Except ε α → Bool
  | Except.ok _ => true
  | Except.error _ => false

/-- A link whose download and metadata steps run to completion without an
    uncaught exception: success status, no write fault, decodable bytes
    (parse failures are caught locally and do not matter here). -/
def linkOk (w : World) (url destination href : String) : Prop :=
  (w.http (fileUrl url href)).status = 200 ∧
  w.ioFault (targetPath destination href) = none ∧
  exceptOk (w.decode (linkBody w url href)) = true

instance (w : World) (url destination href : String) :
    Decidable (linkOk w url destination href) := by
  unfold linkOk
  infer_instance

/-- The filesystem after the downloads of a list of links all succeed. -/
def fsAfter (w : World) (url destination : String) (fs : FS)
    (links : List String) : FS :=
  links.foldl
    (fun f h => updateFS f (targetPath destination h) (linkBody w url h)) fs

/-! ### Step lemmas for the pipeline -/

lemma exceptOk_iff {ε α : Type} (x : Except ε α) :
    exceptOk x = true ↔ ∃ a, x = Except.ok a := by
  cases x with
  | ok a => simp [exceptOk]
  | error e => simp [exceptOk]

lemma updateFS_self (fs : FS) (p : String) (v : List Nat) :
    updateFS fs p v p = some v := by
  simp [updateFS]

lemma download_file_ok (w : World) (fs : FS)
    (file_url destination_path file_name : String)
    (hs : (w.http file_url).status = 200)
    (hf : w.ioFault (posixJoin destination_path file_name) = none) :
    download_file w fs file_url destination_path file_name =
      { fs := updateFS fs (posixJoin destination_path file_name)
          (w.http file_url).body,
        printed := ["Downloaded file to "
          ++ posixJoin destination_path file_name],
        requested := [file_url], err := none, retVal := none,
        opened := true, closed := true } := by
  simp only [download_file, hs, hf]
  rw [chunks4096_filter, chunks4096_join, if_neg (show ¬(200 ≠ 200) by simp)]

lemma download_file_fail (w : World) (fs : FS)
    (file_url destination_path file_name : String)
    (hs : (w.http file_url).status ≠ 200) :
    download_file w fs file_url destination_path file_name =
      { fs := fs, printed := [], requested := [file_url],
        err := some ("Failed to retrieve file from " ++ file_url ++
          " with error code " ++ toString (w.http file_url).status),
        retVal := none, opened := false, closed := false } := by
  simp only [download_file, if_pos hs]

lemma print_xml_metadata_ok (w : World) (fs : FS) (p : String)
    (bytes : List Nat) (t : String)
    (hfs : fs p = some bytes) (hdec : w.decode bytes = Except.ok t) :
    print_xml_metadata w fs p =
      Except.ok (("Metadata for " ++ p ++ ":") :: pySlice 500 t ::
        (print_xml_data_types w.parseXml t ++
         print_all_elements w.parseXml t)) := by
  simp [print_xml_metadata, hfs, hdec]

lemma processLinks_nil (w : World) (url destination : String) (fs : FS) :
    processLinks w url destination fs [] =
      { fs := fs, printed := [], requested := [], err := none } := by
  simp [processLinks]

/-- One successful iteration of the loop: the download writes the body, the
    metadata step succeeds, and the loop continues on the rest with the
    updated filesystem. -/
lemma processLinks_cons_ok (w : World) (url destination : String) (fs : FS)
    (a : String) (rest : List String)
    (hok : linkOk w url destination a) :
    (processLinks w url destination fs (a :: rest)).err
        = (processLinks w url destination
            (updateFS fs (targetPath destination a) (linkBody w url a)) rest).err ∧
    (processLinks w url destination fs (a :: rest)).requested
        = fileUrl url a :: (processLinks w url destination
            (updateFS fs (targetPath destination a) (linkBody w url a)) rest).requested ∧
    (processLinks w url destination fs (a :: rest)).fs
        = (processLinks w url destination
            (updateFS fs (targetPath destination a) (linkBody w url a)) rest).fs := by
  obtain ⟨h200, hfault, hdec⟩ := hok
  obtain ⟨t, ht⟩ := (exceptOk_iff _).mp hdec
  have ht' : w.decode ((w.http (posixJoin url a)).body) = Except.ok t := ht
  have hd := download_file_ok w fs (posixJoin url a) destination
    (pyBasename a) h200 hfault
  have hm := print_xml_metadata_ok w
    (updateFS fs (posixJoin destination (pyBasename a))
      ((w.http (posixJoin url a)).body))
    (posixJoin destination (pyBasename a)) ((w.http (posixJoin url a)).body) t
    (updateFS_self _ _ _) ht'
  simp only [processLinks, hd, hm]
  refine ⟨rfl, rfl, rfl⟩

/-- A loop over links that all succeed: no uncaught error, one GET per link
    in order, and the filesystem accumulates all downloads. -/
lemma processLinks_ok (w : World) (url destination : String) :
    ∀ (links : List String) (fs : FS),
      (∀ h ∈ links, linkOk w url destination h) →
      (processLinks w url destination fs links).err = none ∧
      (processLinks w url destination fs links).requested
          = links.map (fileUrl url) ∧
      (processLinks w url destination fs links).fs
          = fsAfter w url destination fs links := by
  intro links
  induction links with
  | nil =>
      intro fs _
      simp [processLinks_nil, fsAfter]
  | cons a rest ih =>
      intro fs hok
      have hca := processLinks_cons_ok w url destination fs a rest
        (hok a (by simp))
      have hr := ih (updateFS fs (targetPath destination a) (linkBody w url a))
        (fun h hh => hok h (by simp [hh]))
      refine ⟨?_, ?_, ?_⟩
      · rw [hca.1, hr.1]
      · rw [hca.2.1, hr.2.1]
        simp
      · rw [hca.2.2, hr.2.2]
        simp [fsAfter]

/-- The loop stops at the first link whose fetch has a non-200 status: the
    IOError from download_file is the loop's error, no later link is
    requested, and the filesystem holds exactly the earlier downloads. -/
lemma processLinks_fetch_fail (w : World) (url destination : String) :
    ∀ (pre : List String) (bad : String) (post : List String) (fs : FS),
      (∀ h ∈ pre, linkOk w url destination h) →
      (w.http (fileUrl url bad)).status ≠ 200 →
      (processLinks w url destination fs (pre ++ bad :: post)).err
          = some ("Failed to retrieve file from " ++ fileUrl url bad ++
            " with error code " ++ toString (w.http (fileUrl url bad)).status) ∧
      (processLinks w url destination fs (pre ++ bad :: post)).requested
          = pre.map (fileUrl url) ++ [fileUrl url bad] ∧
      (processLinks w url destination fs (pre ++ bad :: post)).fs
          = fsAfter w url destination fs pre := by
  intro pre
  induction pre with
  | nil =>
      intro bad post fs _ hbad
      have hd := download_file_fail w fs (posixJoin url bad) destination
        (pyBasename bad) hbad
      simp only [List.nil_append, processLinks, hd]
      exact ⟨rfl, rfl, rfl⟩
  | cons a rest ih =>
      intro bad post fs hok hbad
      have hca := processLinks_cons_ok w url destination fs a
        (rest ++ bad :: post) (hok a (by simp))
      have hr := ih bad post
        (updateFS fs (targetPath destination a) (linkBody w url a))
        (fun h hh => hok h (by simp [hh])) hbad
      refine ⟨?_, ?_, ?_⟩
      · rw [List.cons_append, hca.1, hr.1]
      · rw [List.cons_append, hca.2.1, hr.2.1]
        simp
      · rw [List.cons_append, hca.2.2, hr.2.2]
        simp [fsAfter]

/-- The loop stops at the first link whose downloaded bytes the text decoder
    rejects: the decoding error aborts the loop uncaught, the failing link's
    file is already on disk, and no later link is requested. -/
lemma processLinks_decode_fail (w : World) (url destination : String) :
    ∀ (pre : List String) (bad : String) (post : List String) (fs : FS)
      (e : String),
      (∀ h ∈ pre, linkOk w url destination h) →
      (w.http (fileUrl url bad)).status = 200 →
      w.ioFault (targetPath destination bad) = none →
      w.decode (linkBody w url bad) = Except.error e →
      (processLinks w url destination fs (pre ++ bad :: post)).err = some e ∧
      (processLinks w url destination fs (pre ++ bad :: post)).requested
          = pre.map (fileUrl url) ++ [fileUrl url bad] ∧
      (processLinks w url destination fs (pre ++ bad :: post)).fs
          = fsAfter w url destination fs (pre ++ [bad]) := by
  intro pre
  induction pre with
  | nil =>
      intro bad post fs e _ h200 hfault hdec
      have hdec' : w.decode ((w.http (posixJoin url bad)).body)
          = Except.error e := hdec
      have hd := download_file_ok w fs (posixJoin url bad) destination
        (pyBasename bad) h200 hfault
      have hm : print_xml_metadata w
          (updateFS fs (posixJoin destination (pyBasename bad))
            ((w.http (posixJoin url bad)).body))
          (posixJoin destination (pyBasename bad)) = Except.error e := by
        simp [print_xml_metadata, updateFS_self, hdec']
      simp only [List.nil_append, processLinks, hd, hm]
      refine ⟨?_, ?_, ?_⟩ <;> first | rfl | trivial
  | cons a rest ih =>
      intro bad post fs e hok h200 hfault hdec
      have hca := processLinks_cons_ok w url destination fs a
        (rest ++ bad :: post) (hok a (by simp))
      have hr := ih bad post
        (updateFS fs (targetPath destination a) (linkBody w url a)) e
        (fun h hh => hok h (by simp [hh])) h200 hfault hdec
      refine ⟨?_, ?_, ?_⟩
      · rw [List.cons_append, hca.1, hr.1]
      · rw [List.cons_append, hca.2.1, hr.2.1]
        simp
      · rw [List.cons_append, hca.2.2, hr.2.2]
        simp [fsAfter]

lemma get_erddap_metadata_200 (w : World) (url0 destination : String) (fs : FS)
    (hidx : (w.http (pyRstrip '/' url0)).status = 200) :
    (get_erddap_metadata w url0 destination fs).err
        = (processLinks w (pyRstrip '/' url0) destination fs
            (feedTags (w.tokenize (w.http (pyRstrip '/' url0)).text))).err ∧
    (get_erddap_metadata w url0 destination fs).requested
        = pyRstrip '/' url0 :: (processLinks w (pyRstrip '/' url0) destination fs
            (feedTags (w.tokenize (w.http (pyRstrip '/' url0)).text))).requested ∧
    (get_erddap_metadata w url0 destination fs).fs
        = (processLinks w (pyRstrip '/' url0) destination fs
            (feedTags (w.tokenize (w.http (pyRstrip '/' url0)).text))).fs := by
  simp only [get_erddap_metadata, hidx]
  rw [if_neg (show ¬(200 ≠ 200) by simp)]
  exact ⟨rfl, rfl, rfl⟩

lemma get_erddap_metadata_fail (w : World) (url0 destination : String) (fs : FS)
    (hidx : (w.http (pyRstrip '/' url0)).status ≠ 200) :
    get_erddap_metadata w url0 destination fs =
      { fs := fs, printed := [], requested := [pyRstrip '/' url0],
        err := some ("Failed to get index from ERDDAP at "
          ++ pyRstrip '/' url0) } := by
  simp only [get_erddap_metadata]
  rw [if_pos hidx]

/-! ### String facts for the URL and path joins -/

lemma head?_dropWhile {α : Type} (p : α → Bool) :
    ∀ (l : List α) (a : α), (l.dropWhile p).head? = some a → p a = false := by
  intro l
  induction l with
  | nil => intro a h; simp at h
  | cons x xs ih =>
      intro a h
      rw [List.dropWhile_cons] at h
      by_cases hp : p x = true
      · rw [if_pos hp] at h
        exact ih a h
      · rw [if_neg hp] at h
        simp only [List.head?_cons, Option.some.injEq] at h
        subst h
        simpa using hp

lemma pyRstrip_no_trailing (c : Char) (s : String) :
    strLast (pyRstrip c s) ≠ some c := by
  unfold pyRstrip strLast
  intro h
  rw [show (String.mk ((s.data.reverse.dropWhile (fun x => x = c)).reverse)).data
      = (s.data.reverse.dropWhile (fun x => x = c)).reverse from rfl,
    List.getLast?_reverse] at h
  have hc := head?_dropWhile (fun x => x = c) s.data.reverse c h
  simp at hc

lemma string_eq_empty_iff (s : String) : s = "" ↔ s.data = [] := by
  constructor
  · intro h
    rw [h]
  · intro h
    have h2 : s = String.mk s.data := rfl
    rw [h2, h]

lemma posixJoin_relative (a b : String) (ha : a ≠ "")
    (ha2 : strLast a ≠ some '/') (hb : strHead b ≠ some '/') :
    posixJoin a b = a ++ "/" ++ b := by
  unfold posixJoin
  rw [if_neg hb, if_neg]
  intro hor
  rcases hor with hnil | hsl
  · exact ha ((string_eq_empty_iff a).mpr hnil)
  · exact ha2 hsl

lemma posixJoin_absolute (a b : String) (hb : strHead b = some '/') :
    posixJoin a b = b := by
  unfold posixJoin
  rw [if_pos hb]

/-! ### Filesystem lookups after a run -/

lemma fsAfter_lookup (w : World) (url destination : String) :
    ∀ (links : List String) (fs : FS) (p : String),
      fsAfter w url destination fs links p
        = links.foldl
            (fun acc h =>
              if p = targetPath destination h then some (linkBody w url h)
              else acc)
            (fs p) := by
  intro links
  induction links with
  | nil => intro fs p; simp [fsAfter]
  | cons a rest ih =>
      intro fs p
      have h1 : fsAfter w url destination fs (a :: rest)
          = fsAfter w url destination
              (updateFS fs (targetPath destination a) (linkBody w url a)) rest := by
        simp [fsAfter]
      rw [h1, ih]
      simp [updateFS]

lemma foldl_override_of_no_match {α : Type} (p : String) (key : α → String)
    (v : α → Option (List Nat)) :
    ∀ (l : List α) (init : Option (List Nat)),
      (∀ x ∈ l, p ≠ key x) →
      l.foldl (fun acc x => if p = key x then v x else acc) init = init := by
  intro l
  induction l with
  | nil => intro init _; simp
  | cons a rest ih =>
      intro init hno
      simp only [List.foldl_cons]
      rw [if_neg (hno a (by simp))]
      exact ih init (fun x hx => hno x (by simp [hx]))

/-! ### Concrete worlds for witnesses and counterexamples -/

def fsEmpty : FS := fun _ => none

def wDemo : World :=
  { http := fun u =>
      if u = "http://example.com/erddap" then ⟨200, "index", []⟩
      else if u = "http://example.com/erddap/a.xml" then ⟨200, "", [10, 20]⟩
      else ⟨404, "", []⟩,
    tokenize := fun _ =>
      [("a", [("href", some "a.xml")]), ("a", [("href", some "b.xml")])],
    decode := fun _ => Except.ok "<doc/>",
    parseXml := fun _ => Except.error "not well-formed: line 1, column 0",
    ioFault := fun _ => none }

/-- C3: the first non-200 fetch aborts the run uncaught.  A non-200 on the
    index yields the IOError with nothing downloaded and only the index
    requested; a non-200 on a linked file, after earlier links succeeded,
    yields the IOError from download_file, requests nothing past the failing
    link, and leaves exactly the earlier downloads on disk. -/
theorem claim_C3 :
    (∀ (w : World) (url0 destination : String) (fs : FS),
      (w.http (pyRstrip '/' url0)).status ≠ 200 →
      (get_erddap_metadata w url0 destination fs).err
          = some ("Failed to get index from ERDDAP at " ++ pyRstrip '/' url0) ∧
      (get_erddap_metadata w url0 destination fs).fs = fs ∧
      (get_erddap_metadata w url0 destination fs).requested
          = [pyRstrip '/' url0]) ∧
    (∀ (w : World) (url0 url destination : String) (fs : FS)
        (pre : List String) (bad : String) (post : List String),
      url = pyRstrip '/' url0 →
      (w.http url).status = 200 →
      feedTags (w.tokenize (w.http url).text) = pre ++ bad :: post →
      (∀ h ∈ pre, linkOk w url destination h) →
      (w.http (fileUrl url bad)).status ≠ 200 →
      (get_erddap_metadata w url0 destination fs).err
          = some ("Failed to retrieve file from " ++ fileUrl url bad ++
            " with error code " ++ toString (w.http (fileUrl url bad)).status) ∧
      (get_erddap_metadata w url0 destination fs).requested
          = url :: (pre.map (fileUrl url) ++ [fileUrl url bad]) ∧
      (get_erddap_metadata w url0 destination fs).fs
          = fsAfter w url destination fs pre) := by
  constructor
  · intro w url0 destination fs hidx
    rw [get_erddap_metadata_fail w url0 destination fs hidx]
    exact ⟨rfl, rfl, rfl⟩
  · intro w url0 url destination fs pre bad post hurl hidx hlinks hok hbad
    subst hurl
    obtain ⟨he, hr, hf⟩ := get_erddap_metadata_200 w url0 destination fs hidx
    obtain ⟨pe, pr, pf⟩ := processLinks_fetch_fail w (pyRstrip '/' url0)
      destination pre bad post fs hok hbad
    refine ⟨?_, ?_, ?_⟩
    · rw [he, hlinks, pe]
    · rw [hr, hlinks, pr]
    · rw [hf, hlinks, pf]

/-- C3 witness: in a concrete world where the index lists a.xml then b.xml,
    a.xml succeeds and b.xml answers 404, the run ends with the IOError of
    b.xml, requests stop at b.xml, and a.xml's download is on disk. -/
theorem claim_C3_witness :
    ((wDemo.http (pyRstrip '/' "http://example.com/erddap/")).status = 200 ∧
     feedTags (wDemo.tokenize
         (wDemo.http (pyRstrip '/' "http://example.com/erddap/")).text)
       = ["a.xml"] ++ "b.xml" :: [] ∧
     (∀ h ∈ ["a.xml"], linkOk wDemo "http://example.com/erddap" "/dest" h) ∧
     (wDemo.http (fileUrl "http://example.com/erddap" "b.xml")).status ≠ 200) ∧
    ((get_erddap_metadata wDemo "http://example.com/erddap/" "/dest" fsEmpty).err
        = some ("Failed to retrieve file from "
          ++ fileUrl "http://example.com/erddap" "b.xml"
          ++ " with error code "
          ++ toString (wDemo.http
              (fileUrl "http://example.com/erddap" "b.xml")).status) ∧
     (get_erddap_metadata wDemo "http://example.com/erddap/" "/dest" fsEmpty).requested
        = "http://example.com/erddap"
          :: (["a.xml"].map (fileUrl "http://example.com/erddap")
            ++ [fileUrl "http://example.com/erddap" "b.xml"]) ∧
     (get_erddap_metadata wDemo "http://example.com/erddap/" "/dest" fsEmpty).fs
        = fsAfter wDemo "http://example.com/erddap" "/dest" fsEmpty ["a.xml"]) :=
  ⟨⟨by decide, by decide, by decide, by decide⟩,
    claim_C3.2 wDemo "http://example.com/erddap/" "http://example.com/erddap"
      "/dest" fsEmpty ["a.xml"] "b.xml" [] (by decide) (by decide) (by decide)
      (by decide) (by decide)⟩

/-- C4: a document that fails to parse is handled locally in each of the two
    extraction passes: each pass independently attempts its own parse,
    reports "Failed to parse XML content:" with the parser diagnostic, and
    returns normally; print_xml_metadata still returns Except.ok with the
    diagnostic reported once per pass, and a run whose parser rejects every
    document still processes every link without an uncaught error. -/
theorem claim_C4 :
    (∀ (p : String → Except String XmlElem) (content e : String),
      p content = Except.error e →
      print_xml_data_types p content
          = ["Failed to parse XML content: " ++ e] ∧
      print_all_elements p content
          = ["Failed to parse XML content: " ++ e]) ∧
    (∀ (w : World) (fs : FS) (path : String) (bytes : List Nat)
        (content e : String),
      fs path = some bytes → w.decode bytes = Except.ok content →
      w.parseXml content = Except.error e →
      print_xml_metadata w fs path =
        Except.ok (("Metadata for " ++ path ++ ":") :: pySlice 500 content ::
          ["Failed to parse XML content: " ++ e,
           "Failed to parse XML content: " ++ e])) ∧
    (∀ (w : World) (url destination : String) (fs : FS) (links : List String),
      (∀ h ∈ links, linkOk w url destination h) →
      (∀ s, exceptOk (w.parseXml s) = false) →
      (processLinks w url destination fs links).err = none) := by
  refine ⟨?_, ?_, ?_⟩
  · intro p content e hp
    exact ⟨by simp [print_xml_data_types, hp], by simp [print_all_elements, hp]⟩
  · intro w fs path bytes content e hfs hdec hp
    simp [print_xml_metadata, hfs, hdec, print_xml_data_types,
      print_all_elements, hp]
  · intro w url destination fs links hok _
    exact (processLinks_ok w url destination links fs hok).1

/-- C4 witness: with the always-failing parser of the demo world, both
    passes report the diagnostic, the metadata step returns ok, and the loop
    still completes the one successful link. -/
theorem claim_C4_witness :
    (wDemo.parseXml "<doc/>"
        = Except.error "not well-formed: line 1, column 0" ∧
      (updateFS fsEmpty "/dest/a.xml" [10, 20]) "/dest/a.xml" = some [10, 20] ∧
      wDemo.decode [10, 20] = Except.ok "<doc/>" ∧
      (∀ h ∈ ["a.xml"], linkOk wDemo "http://example.com/erddap" "/dest" h)) ∧
    (print_xml_data_types wDemo.parseXml "<doc/>"
        = ["Failed to parse XML content: not well-formed: line 1, column 0"] ∧
     print_all_elements wDemo.parseXml "<doc/>"
        = ["Failed to parse XML content: not well-formed: line 1, column 0"]) ∧
    (print_xml_metadata wDemo (updateFS fsEmpty "/dest/a.xml" [10, 20])
        "/dest/a.xml" =
      Except.ok (("Metadata for /dest/a.xml:") :: pySlice 500 "<doc/>" ::
        ["Failed to parse XML content: not well-formed: line 1, column 0",
         "Failed to parse XML content: not well-formed: line 1, column 0"])) ∧
    (processLinks wDemo "http://example.com/erddap" "/dest" fsEmpty
        ["a.xml"]).err = none :=
  ⟨⟨rfl, by decide, rfl, by decide⟩,
    claim_C4.1 wDemo.parseXml "<doc/>" "not well-formed: line 1, column 0"
      rfl,
    claim_C4.2.1 wDemo (updateFS fsEmpty "/dest/a.xml" [10, 20]) "/dest/a.xml"
      [10, 20] "<doc/>" "not well-formed: line 1, column 0" (by decide)
      rfl rfl,
    claim_C4.2.2 wDemo "http://example.com/erddap" "/dest" fsEmpty ["a.xml"]
      (by decide) (fun _ => rfl)⟩

/-- C5 counterexample: download_file has no return statement.  On a
    successful retrieval of a 2-byte body it returns None, not the byte
    count 2 the claim promises. -/
theorem claim_C5_counterexample :
    (download_file wDemo fsEmpty "http://example.com/erddap/a.xml" "/dest"
      "a.xml").err = none ∧
    (wDemo.http "http://example.com/erddap/a.xml").body.length = 2 ∧
    (download_file wDemo fsEmpty "http://example.com/erddap/a.xml" "/dest"
      "a.xml").retVal = none ∧
    (download_file wDemo fsEmpty "http://example.com/erddap/a.xml" "/dest"
      "a.xml").retVal
        ≠ some (wDemo.http "http://example.com/erddap/a.xml").body.length := by
  decide

/-- C5 amended: on every successful (status 200, fault-free) retrieval,
    download_file completes without an uncaught error and the local file
    holds exactly the response body (so the number of bytes written equals
    the body's length), but the function returns None: no byte count is
    returned to the caller. -/
theorem claim_C5_amended (w : World) (fs : FS)
    (file_url destination_path file_name : String)
    (hs : (w.http file_url).status = 200)
    (hf : w.ioFault (posixJoin destination_path file_name) = none) :
    (download_file w fs file_url destination_path file_name).err = none ∧
    (download_file w fs file_url destination_path file_name).fs
        (posixJoin destination_path file_name)
      = some ((w.http file_url).body) ∧
    (download_file w fs file_url destination_path file_name).retVal = none := by
  rw [download_file_ok w fs file_url destination_path file_name hs hf]
  exact ⟨rfl, updateFS_self _ _ _, rfl⟩

/-- C5 witness: the amended theorem at the demo world's a.xml, whose body is
    the two bytes 10, 20. -/
theorem claim_C5_amended_witness :
    ((wDemo.http "http://example.com/erddap/a.xml").status = 200 ∧
      wDemo.ioFault (posixJoin "/dest" "a.xml") = none) ∧
    ((download_file wDemo fsEmpty "http://example.com/erddap/a.xml" "/dest"
        "a.xml").err = none ∧
      (download_file wDemo fsEmpty "http://example.com/erddap/a.xml" "/dest"
        "a.xml").fs (posixJoin "/dest" "a.xml")
        = some ((wDemo.http "http://example.com/erddap/a.xml").body) ∧
      (download_file wDemo fsEmpty "http://example.com/erddap/a.xml" "/dest"
        "a.xml").retVal = none) ∧
    (wDemo.http "http://example.com/erddap/a.xml").body = [10, 20] :=
  ⟨⟨by decide, by decide⟩,
    claim_C5_amended wDemo fsEmpty "http://example.com/erddap/a.xml" "/dest"
      "a.xml" (by decide) (by decide),
    by decide⟩

def wAbs : World :=
  { http := fun u =>
      if u = "http://example.com/waf" then ⟨200, "index", []⟩
      else ⟨404, "", []⟩,
    tokenize := fun _ => [("a", [("href", some "/a.xml")])],
    decode := fun _ => Except.ok "x",
    parseXml := fun _ => Except.error "e",
    ioFault := fun _ => none }

/-- C6 counterexample: the per-file url is built with os.path.join, not with
    URL-join semantics.  For the discovered href "/a.xml" the GET is issued
    to "/a.xml" — the base address is discarded — instead of to
    base ++ "/" ++ href as the claim states. -/
theorem claim_C6_counterexample :
    (get_erddap_metadata wAbs "http://example.com/waf" "/dest" fsEmpty).requested
        = ["http://example.com/waf", "/a.xml"] ∧
    fileUrl "http://example.com/waf" "/a.xml" = "/a.xml" ∧
    "/a.xml" ≠ "http://example.com/waf" ++ "/" ++ "/a.xml" := by
  decide

/-- C6 amended: the per-file address is os.path.join(base, href) with POSIX
    path-join semantics: when the href does not begin with '/' (and the
    slash-stripped base is non-empty) it equals base/href, but an href
    beginning with '/' replaces the base entirely. -/
theorem claim_C6_amended (url0 href : String) :
    (strHead href ≠ some '/' → pyRstrip '/' url0 ≠ "" →
      fileUrl (pyRstrip '/' url0) href
        = pyRstrip '/' url0 ++ "/" ++ href) ∧
    (strHead href = some '/' → fileUrl (pyRstrip '/' url0) href = href) := by
  constructor
  · intro hb hne
    exact posixJoin_relative _ _ hne (pyRstrip_no_trailing '/' url0) hb
  · intro hb
    exact posixJoin_absolute _ _ hb

/-- C6 witness: the amended theorem for a relative href under a base with a
    trailing slash, giving the expected concatenation. -/
theorem claim_C6_amended_witness :
    (strHead "a.xml" ≠ some '/' ∧ pyRstrip '/' "http://h/x/" ≠ "" ∧
      strHead "/b.xml" = some '/') ∧
    ((strHead "a.xml" ≠ some '/' → pyRstrip '/' "http://h/x/" ≠ "" →
        fileUrl (pyRstrip '/' "http://h/x/") "a.xml"
          = pyRstrip '/' "http://h/x/" ++ "/" ++ "a.xml") ∧
      (strHead "a.xml" = some '/' →
        fileUrl (pyRstrip '/' "http://h/x/") "a.xml" = "a.xml")) ∧
    fileUrl (pyRstrip '/' "http://h/x/") "a.xml" = "http://h/x/a.xml" :=
  ⟨⟨by decide, by decide, by decide⟩,
    claim_C6_amended "http://h/x/" "a.xml",
    by decide⟩

def w404 : World :=
  { http := fun _ => ⟨404, "", []⟩, tokenize := fun _ => [],
    decode := fun _ => Except.ok "", parseXml := fun _ => Except.error "e",
    ioFault := fun _ => none }

def w500 : World :=
  { http := fun _ => ⟨500, "", []⟩, tokenize := fun _ => [],
    decode := fun _ => Except.ok "", parseXml := fun _ => Except.error "e",
    ioFault := fun _ => none }

/-- C7 counterexample: the IOError of a failed index fetch does not carry
    the received status code: two servers answering 404 and 500 produce the
    identical error message, which therefore cannot carry the status. -/
theorem claim_C7_counterexample :
    (w404.http "http://example.com").status
        ≠ (w500.http "http://example.com").status ∧
    (get_erddap_metadata w404 "http://example.com" "/dest" fsEmpty).err
        = (get_erddap_metadata w500 "http://example.com" "/dest" fsEmpty).err ∧
    (get_erddap_metadata w404 "http://example.com" "/dest" fsEmpty).err
        = some "Failed to get index from ERDDAP at http://example.com" := by
  decide

/-- C7 amended: a non-200 on a linked file raises IOError carrying both the
    address and the status code; a non-200 on the index raises IOError
    carrying only the address — the status code is not part of the index
    error. -/
theorem claim_C7_amended :
    (∀ (w : World) (fs : FS) (file_url destination_path file_name : String),
      (w.http file_url).status ≠ 200 →
      (download_file w fs file_url destination_path file_name).err
          = some ("Failed to retrieve file from " ++ file_url ++
            " with error code " ++ toString (w.http file_url).status)) ∧
    (∀ (w : World) (url0 destination : String) (fs : FS),
      (w.http (pyRstrip '/' url0)).status ≠ 200 →
      (get_erddap_metadata w url0 destination fs).err
          = some ("Failed to get index from ERDDAP at "
            ++ pyRstrip '/' url0)) := by
  constructor
  · intro w fs file_url destination_path file_name hs
    rw [download_file_fail w fs file_url destination_path file_name hs]
  · intro w url0 destination fs hidx
    rw [get_erddap_metadata_fail w url0 destination fs hidx]

/-- C7 witness: both parts of the amended theorem in the all-404 world. -/
theorem claim_C7_amended_witness :
    ((w404.http "http://file").status ≠ 200 ∧
      (w404.http (pyRstrip '/' "http://example.com")).status ≠ 200) ∧
    (download_file w404 fsEmpty "http://file" "/dest" "f.xml").err
        = some ("Failed to retrieve file from " ++ "http://file" ++
          " with error code " ++ toString (w404.http "http://file").status) ∧
    (get_erddap_metadata w404 "http://example.com" "/dest" fsEmpty).err
        = some ("Failed to get index from ERDDAP at "
          ++ pyRstrip '/' "http://example.com") :=
  ⟨⟨by decide, by decide⟩,
    claim_C7_amended.1 w404 fsEmpty "http://file" "/dest" "f.xml" (by decide),
    claim_C7_amended.2 w404 "http://example.com" "/dest" fsEmpty (by decide)⟩

/-- C8: on a 200 response the body is streamed in chunks that are non-empty
    and at most 4096 bytes long; in the fault-free case the written file
    holds exactly the response body at os.path.join(destination, file_name);
    the with-block closes the handle whenever it was opened, on every exit
    path including a write fault; and the path equals
    destination ++ "/" ++ file_name for ordinary arguments. -/
theorem claim_C8 (w : World) (fs : FS)
    (file_url destination_path file_name : String)
    (hs : (w.http file_url).status = 200) :
    (∀ c ∈ chunks4096 (w.http file_url).body, c ≠ [] ∧ c.length ≤ 4096) ∧
    (w.ioFault (posixJoin destination_path file_name) = none →
      (download_file w fs file_url destination_path file_name).err = none ∧
      (download_file w fs file_url destination_path file_name).fs
          (posixJoin destination_path file_name)
        = some ((w.http file_url).body)) ∧
    (download_file w fs file_url destination_path file_name).closed
        = (download_file w fs file_url destination_path file_name).opened ∧
    (strHead file_name ≠ some '/' → destination_path ≠ "" →
      strLast destination_path ≠ some '/' →
      posixJoin destination_path file_name
        = destination_path ++ "/" ++ file_name) := by
  refine ⟨?_, ?_, ?_, ?_⟩
  · intro c hc
    exact chunksFuel_ne_nil 4096 (by omega) _ _ c hc
  · intro hf
    rw [download_file_ok w fs file_url destination_path file_name hs hf]
    exact ⟨rfl, updateFS_self _ _ _⟩
  · simp only [download_file, hs]
    rw [if_neg (show ¬(200 ≠ 200) by simp)]
    split
    · split <;> rfl
    · rfl
  · intro h1 h2 h3
    exact posixJoin_relative _ _ h2 h3 h1

/-- C8 witness: the theorem at the demo world's a.xml with body [10, 20]. -/
theorem claim_C8_witness :
    ((wDemo.http "http://example.com/erddap/a.xml").status = 200 ∧
      wDemo.ioFault (posixJoin "/dest" "a.xml") = none ∧
      strHead "a.xml" ≠ some '/' ∧ ("/dest" : String) ≠ "" ∧
      strLast "/dest" ≠ some '/') ∧
    ((∀ c ∈ chunks4096 (wDemo.http "http://example.com/erddap/a.xml").body,
        c ≠ [] ∧ c.length ≤ 4096) ∧
      (wDemo.ioFault (posixJoin "/dest" "a.xml") = none →
        (download_file wDemo fsEmpty "http://example.com/erddap/a.xml" "/dest"
          "a.xml").err = none ∧
        (download_file wDemo fsEmpty "http://example.com/erddap/a.xml" "/dest"
          "a.xml").fs (posixJoin "/dest" "a.xml")
          = some ((wDemo.http "http://example.com/erddap/a.xml").body)) ∧
      (download_file wDemo fsEmpty "http://example.com/erddap/a.xml" "/dest"
          "a.xml").closed
        = (download_file wDemo fsEmpty "http://example.com/erddap/a.xml"
            "/dest" "a.xml").opened ∧
      (strHead "a.xml" ≠ some '/' → ("/dest" : String) ≠ "" →
        strLast "/dest" ≠ some '/' →
        posixJoin "/dest" "a.xml" = "/dest" ++ "/" ++ "a.xml")) ∧
    (wDemo.http "http://example.com/erddap/a.xml").body = [10, 20] ∧
    posixJoin "/dest" "a.xml" = "/dest/a.xml" :=
  ⟨⟨by decide, by decide, by decide, by decide, by decide⟩,
    claim_C8 wDemo fsEmpty "http://example.com/erddap/a.xml" "/dest" "a.xml"
      (by decide),
    by decide, by decide⟩

def wDec : World :=
  { http := fun u =>
      if u = "http://h" then ⟨200, "index", []⟩
      else if u = "http://h/a.xml" then ⟨200, "", [10]⟩
      else if u = "http://h/b.xml" then ⟨200, "", [255]⟩
      else ⟨404, "", []⟩,
    tokenize := fun _ =>
      [("a", [("href", some "a.xml")]), ("a", [("href", some "b.xml")])],
    decode := fun bytes =>
      if bytes = [255] then Except.error "UnicodeDecodeError: invalid start byte"
      else Except.ok "<doc/>",
    parseXml := fun _ => Except.error "e",
    ioFault := fun _ => none }

/-- C9: the text handed to the extraction passes is the decoding of the
    bytes re-read from the written file; when the decoder rejects a
    downloaded file's bytes, the error aborts the whole run uncaught: the
    failing link's file is already on disk together with the earlier
    downloads, and no later link is requested. -/
theorem claim_C9 (w : World) (url0 url destination : String) (fs : FS)
    (pre : List String) (bad : String) (post : List String) (e : String)
    (hurl : url = pyRstrip '/' url0)
    (hidx : (w.http url).status = 200)
    (hlinks : feedTags (w.tokenize (w.http url).text) = pre ++ bad :: post)
    (hok : ∀ h ∈ pre, linkOk w url destination h)
    (h200 : (w.http (fileUrl url bad)).status = 200)
    (hfault : w.ioFault (targetPath destination bad) = none)
    (hdec : w.decode (linkBody w url bad) = Except.error e) :
    (get_erddap_metadata w url0 destination fs).err = some e ∧
    (get_erddap_metadata w url0 destination fs).requested
        = url :: (pre.map (fileUrl url) ++ [fileUrl url bad]) ∧
    (get_erddap_metadata w url0 destination fs).fs
        = fsAfter w url destination fs (pre ++ [bad]) := by
  subst hurl
  obtain ⟨he, hr, hf⟩ := get_erddap_metadata_200 w url0 destination fs hidx
  obtain ⟨pe, pr, pf⟩ := processLinks_decode_fail w (pyRstrip '/' url0)
    destination pre bad post fs e hok h200 hfault hdec
  exact ⟨by rw [he, hlinks, pe], by rw [hr, hlinks, pr], by rw [hf, hlinks, pf]⟩

/-- C9 witness: in a world where b.xml's bytes are undecodable, the run
    aborts with the UnicodeDecodeError after downloading a.xml and b.xml. -/
theorem claim_C9_witness :
    (("http://h" : String) = pyRstrip '/' "http://h" ∧
      (wDec.http "http://h").status = 200 ∧
      feedTags (wDec.tokenize (wDec.http "http://h").text)
        = ["a.xml"] ++ "b.xml" :: [] ∧
      (∀ h ∈ ["a.xml"], linkOk wDec "http://h" "/dest" h) ∧
      (wDec.http (fileUrl "http://h" "b.xml")).status = 200 ∧
      wDec.ioFault (targetPath "/dest" "b.xml") = none ∧
      wDec.decode (linkBody wDec "http://h" "b.xml")
        = Except.error "UnicodeDecodeError: invalid start byte") ∧
    ((get_erddap_metadata wDec "http://h" "/dest" fsEmpty).err
        = some "UnicodeDecodeError: invalid start byte" ∧
      (get_erddap_metadata wDec "http://h" "/dest" fsEmpty).requested
        = "http://h" :: (["a.xml"].map (fileUrl "http://h")
          ++ [fileUrl "http://h" "b.xml"]) ∧
      (get_erddap_metadata wDec "http://h" "/dest" fsEmpty).fs
        = fsAfter wDec "http://h" "/dest" fsEmpty (["a.xml"] ++ ["b.xml"])) :=
  ⟨⟨by decide, by decide, by decide, by decide, by decide, by decide, rfl⟩,
    claim_C9 wDec "http://h" "http://h" "/dest" fsEmpty ["a.xml"] "b.xml" []
      "UnicodeDecodeError: invalid start byte" (by decide) (by decide)
      (by decide) (by decide) (by decide) (by decide) rfl⟩

def wDup : World :=
  { http := fun u =>
      if u = "http://h" then ⟨200, "index", []⟩
      else if u = "http://h/x/dup.xml" then ⟨200, "", [1]⟩
      else if u = "http://h/y/dup.xml" then ⟨200, "", [2]⟩
      else ⟨404, "", []⟩,
    tokenize := fun _ =>
      [("a", [("href", some "x/dup.xml")]), ("a", [("href", some "y/dup.xml")])],
    decode := fun _ => Except.ok "<doc/>",
    parseXml := fun _ => Except.error "e",
    ioFault := fun _ => none }

/-- C10: when every discovered link succeeds, the final content of any local
    path is determined by the last link written to it (each download opens
    the file freshly); in particular for links whose basenames collide, the
    file ends up holding the body of the last such link. -/
theorem claim_C10 (w : World) (url0 url destination : String) (fs : FS)
    (links : List String)
    (hurl : url = pyRstrip '/' url0)
    (hidx : (w.http url).status = 200)
    (hlinks : feedTags (w.tokenize (w.http url).text) = links)
    (hok : ∀ h ∈ links, linkOk w url destination h) :
    (∀ p, (get_erddap_metadata w url0 destination fs).fs p
        = links.foldl
            (fun acc h => if p = targetPath destination h
              then some (linkBody w url h) else acc) (fs p)) ∧
    (∀ pre h2 post2, links = pre ++ h2 :: post2 →
      (∀ h3 ∈ post2, targetPath destination h3 ≠ targetPath destination h2) →
      (get_erddap_metadata w url0 destination fs).fs
          (targetPath destination h2) = some (linkBody w url h2)) := by
  subst hurl
  obtain ⟨he, hr, hf⟩ := get_erddap_metadata_200 w url0 destination fs hidx
  obtain ⟨pe, pr, pf⟩ := processLinks_ok w (pyRstrip '/' url0) destination
    links fs hok
  have hfs : (get_erddap_metadata w url0 destination fs).fs
      = fsAfter w (pyRstrip '/' url0) destination fs links := by
    rw [hf, hlinks, pf]
  constructor
  · intro p
    rw [hfs, fsAfter_lookup]
  · intro pre h2 post2 hsplit hno
    rw [hfs, fsAfter_lookup]
    subst hsplit
    rw [List.foldl_append, List.foldl_cons, if_pos rfl]
    exact foldl_override_of_no_match (targetPath destination h2)
      (targetPath destination) (fun h3 => some (linkBody w (pyRstrip '/' url0) h3))
      post2 _ (fun x hx => (hno x hx).symm)

/-- C10 witness: two links x/dup.xml and y/dup.xml share the basename
    dup.xml; after the run, /dest/dup.xml holds the body [2] of the second
    link. -/
theorem claim_C10_witness :
    (("http://h" : String) = pyRstrip '/' "http://h" ∧
      (wDup.http "http://h").status = 200 ∧
      feedTags (wDup.tokenize (wDup.http "http://h").text)
        = ["x/dup.xml"] ++ "y/dup.xml" :: [] ∧
      (∀ h ∈ ["x/dup.xml"] ++ "y/dup.xml" :: [],
        linkOk wDup "http://h" "/dest" h) ∧
      targetPath "/dest" "x/dup.xml" = targetPath "/dest" "y/dup.xml") ∧
    (get_erddap_metadata wDup "http://h" "/dest" fsEmpty).fs
        (targetPath "/dest" "y/dup.xml")
      = some (linkBody wDup "http://h" "y/dup.xml") ∧
    (get_erddap_metadata wDup "http://h" "/dest" fsEmpty).fs "/dest/dup.xml"
      = some [2] :=
  ⟨⟨by decide, by decide, by decide, by decide, by decide⟩,
    (claim_C10 wDup "http://h" "http://h" "/dest" fsEmpty
        (["x/dup.xml"] ++ "y/dup.xml" :: []) (by decide) (by decide)
        (by decide) (by decide)).2 ["x/dup.xml"] "y/dup.xml" [] rfl
      (by simp),
    by decide⟩

end WafDownload
